import Mathlib

set_option maxRecDepth 8000

/-!
Verification development for the chunked message-transfer client
(`send_chunked_message.js` and `src/get/read_message.js`).

The JavaScript is shallowly embedded as follows.

* A payload buffer is a `List Nat` of bytes (byte values are opaque to every
  operation modelled here).
* JS strings appearing as wire metadata (the `mex-chunk-range` header) are
  `List Char`; message bodies and mailbox/message identifiers are `String`.
* `axios.post` / `axios.get` are modelled by an oracle
  `Nat → Except AxiosFailure resp`: the k-th HTTP request of an operation
  either receives the server response `oracle k` or throws a transport-level
  failure.  The three `AxiosFailure` constructors mirror the three branches
  of axios error objects that the `catch` blocks distinguish
  (`error.response`, `error.request`, anything else).
* `generateHeaders` (external collaborator, `generate_headers.js` is not part
  of the modelled core) returns a fresh single-use header set per invocation;
  an invocation is modelled by its serial number `headerToken`, incremented at
  every call site, so two requests carry the same header set iff they carry
  the same token.
* `zlib.gzip` (`compressData`) is an external collaborator as well and is
  passed in as an arbitrary function `List Nat → List Nat`; nothing modelled
  here depends on its output, only on the chunk count it preserves.
* `process.exit(1)` is the outcome `exited`; an uncaught promise rejection is
  the outcome `raised`.
* JS `Number(...)` is modelled for the fragment exercised by the chunk-range
  header: the empty string yields `0`, a string of decimal digits yields its
  value, and any other string yields NaN (`none`).  NaN and `undefined`
  compare `false` under `<`, exactly as in JS.

Each operation returns the ordered trace of issued HTTP requests together
with its outcome, so "exactly N requests are issued" is the length of the
trace.
-/

/-- Chunk size limit in bytes: `const CHUNK_SIZE = 10 * 1024 * 1024` (10 MB). -/
def CHUNK_SIZE : Nat := 10 * 1024 * 1024

/-- Fuel-indexed loop body of `splitIntoChunks`:
`for (let i = 0; i < buffer.length; i += CHUNK_SIZE)
   chunks.push(buffer.slice(i, i + CHUNK_SIZE))`.
`buffer.slice(i, i + CHUNK_SIZE)` of the not-yet-consumed suffix is
`take CHUNK_SIZE`, and advancing `i` is `drop CHUNK_SIZE`.  The fuel only
bounds the iteration count; fuel `buffer.length` always suffices because
every iteration consumes at least one byte (`CHUNK_SIZE ≥ 1`). -/
def splitGo : Nat → List Nat → List (List Nat)
  | _, [] => []
  | 0, _ :: _ => []
  | fuel + 1, b :: bs =>
      ((b :: bs).take CHUNK_SIZE) :: splitGo fuel ((b :: bs).drop CHUNK_SIZE)

/-- `async function splitIntoChunks(buffer)` from `send_chunked_message.js`. -/
def splitIntoChunks (buffer : List Nat) : List (List Nat) :=
  splitGo buffer.length buffer

/-- Decimal digit character, used to model the JS rendering of a number into
a string (template literals) and the value of a digit during `Number(...)`
parsing. -/
def digitChar : Nat → Char
  | 0 => '0'
  | 1 => '1'
  | 2 => '2'
  | 3 => '3'
  | 4 => '4'
  | 5 => '5'
  | 6 => '6'
  | 7 => '7'
  | 8 => '8'
  | 9 => '9'
  | _ => '*'

/-- Numeric value of a digit character (its code point minus 48). -/
def digitVal (c : Char) : Nat := c.toNat - 48

/-- Fuel-indexed decimal rendering loop (most significant digit first);
fuel `n` suffices since `n / 10 < n` for `n > 0`. -/
def natCharsGo : Nat → Nat → List Char → List Char
  | 0, _, acc => acc
  | _ + 1, 0, acc => acc
  | fuel + 1, n + 1, acc =>
      natCharsGo fuel ((n + 1) / 10) (digitChar ((n + 1) % 10) :: acc)

/-- Decimal rendering of a natural number, modelling the JS number-to-string
coercion inside template literals such as `${index + 1}:${chunks.length}`. -/
def natChars (n : Nat) : List Char :=
  if n = 0 then ['0'] else natCharsGo n n []

/-- The chunk-range wire string `"<current>:<total>"` built by the template
literal `${current}:${total}`. -/
def chunkRangeChars (cur total : Nat) : List Char :=
  natChars cur ++ ':' :: natChars total

/-- Loop of JS `String.prototype.split(sep)` over the characters of the
string, accumulating the current piece in reverse. -/
def jsSplitGo (sep : Char) : List Char → List Char → List (List Char)
  | [], acc => [acc.reverse]
  | c :: cs, acc =>
      if c = sep then acc.reverse :: jsSplitGo sep cs []
      else jsSplitGo sep cs (c :: acc)

/-- JS `s.split(sep)` for a one-character separator. -/
def jsSplit (sep : Char) (s : List Char) : List (List Char) :=
  jsSplitGo sep s []

/-- JS `Number(s)` on the fragment relevant to chunk-range parsing:
`Number("") = 0`, a string of decimal digits is parsed as a decimal numeral,
and everything else (in particular any non-numeric string) is NaN, modelled
as `none`.  (Signs, white space and fractional numerals are outside the
modelled fragment; no chunk-range value exercised below contains them.) -/
def jsNumberL (s : List Char) : Option Int :=
  if s.isEmpty then some 0
  else if s.all Char.isDigit then
    some ((s.foldl (fun a c => a * 10 + digitVal c) 0 : Nat) : Int)
  else none

/-- `const [currentChunk, totalChunks] = chunkRange.split(":").map(Number)`:
the first component is `Number` of the first piece (`split` always returns at
least one piece), the second is `Number` of the second piece when present and
`undefined` otherwise; `undefined` and NaN behave identically in the only
consumers (`<` and an unreached `+ 1`), so both are `none`. -/
def parseChunkRange (s : List Char) : Option Int × Option Int :=
  let parts := jsSplit ':' s
  ((parts[0]?).bind jsNumberL, (parts[1]?).bind jsNumberL)

/-- Body (`response.data`) of an upload response: the `message_id` field
(`none` models a missing field, i.e. JS `undefined`) plus the rest of the
JSON value, opaque here. -/
structure RespData where
  message_id : Option String
  rest : String
deriving DecidableEq

/-- An upload response as seen by `sendChunkedMessage`: HTTP status and body;
`data = none` models a null/absent body (JS falsy `response.data`). -/
structure HttpResp where
  status : Nat
  data : Option RespData
deriving DecidableEq

/-- Transport-level failure thrown by an axios call, as discriminated by the
`catch` block: `response` (server answered outside the accepted range, the
error object carries `error.response`), `request` (no response received),
`setup` (the request could not be constructed / any other thrown error). -/
inductive AxiosFailure
  | response (status : Nat)
  | request
  | setup
deriving DecidableEq

/-- Target URL of an upload request, with the constant pieces of the template
elided: `outbox` is `{url}/messageexchange/{mailboxID}/outbox` (no message
identifier), `outboxChunk msgId idx` is
`{url}/messageexchange/{mailboxID}/outbox/{msgId}/{idx}` with `idx` the
1-based chunk number `index + 1`. -/
inductive SendEndpoint
  | outbox
  | outboxChunk (msgId : String) (idx : Nat)
deriving DecidableEq

/-- One POST issued by `sendChunkedMessage`: its endpoint, the serial number
of the `generateHeaders` invocation whose header set it carries, and its
`mex-chunk-range` header.  The constant headers (`mex-from`, `mex-to`,
`mex-workflowid`, `mex-filename`, `content-type`, `content-encoding`) and the
compressed body are the same on every request and are not recorded. -/
structure SendRequest where
  endpoint : SendEndpoint
  headerToken : Nat
  chunkRange : List Char
deriving DecidableEq

/-- Result of `sendChunkedMessage`: `ok` returns the mutable
`result = {status, data}` object; `exited` is `process.exit(1)` on a non-202
status; the three `err*` constructors are the `catch` block returning the
error object after logging, one per discriminated sub-case. -/
inductive SendOutcome
  | ok (status : Option Nat) (data : Option RespData)
  | exited
  | errResponse (status : Nat)
  | errRequest
  | errSetup
deriving DecidableEq

/-- The value returned by the `catch` block of `sendChunkedMessage` for a
thrown transport failure (the error object itself, tagged by which of the
three diagnostic branches logged it). -/
def errOf : AxiosFailure → SendOutcome
  | .response s => .errResponse s
  | .request => .errRequest
  | .setup => .errSetup

/-- JS truthiness of the `messageID` variable (`undefined` and the empty
string are falsy). -/
def jsTruthyStr : Option String → Bool
  | none => false
  | some s => !s.isEmpty

/-- `fullUrl` selection of `sendChunkedMessage`: with a truthy `messageID`
the chunk is posted to `.../outbox/${messageID}/${index + 1}`, otherwise to
`.../outbox`. -/
def sendEndpointFor (messageID : Option String) (index : Nat) : SendEndpoint :=
  match messageID with
  | some m => if m.isEmpty then .outbox else .outboxChunk m (index + 1)
  | none => .outbox

/-- The `for (let [index, data] of chunks.entries())` loop of
`sendChunkedMessage` (steps 3 of the source).  Arguments: remaining chunks,
current `index`, current `messageID`, current `result.status` and
`result.data`, and the running count of `generateHeaders` invocations.  Each
iteration generates one fresh header set, posts one request (the `index`-th
request of the operation, answered by `oracle index`), and then follows the
source exactly: on status 202 the result fields are overwritten only when
`response.data` is truthy, and when `messageID` is falsy it is (re)assigned
`response.data["message_id"]` — reading that field of a null body throws a
`TypeError`, which the `catch` block returns through its final branch; on any
other status the process exits. -/
def sendLoop (oracle : Nat → Except AxiosFailure HttpResp) (total : Nat) :
    List (List Nat) → Nat → Option String → Option Nat → Option RespData →
    Nat → List SendRequest × SendOutcome
  | [], _, _, rstatus, rdata, _ => ([], .ok rstatus rdata)
  | _ :: rest, index, messageID, rstatus, rdata, hdr =>
    let req : SendRequest :=
      ⟨sendEndpointFor messageID index, hdr, chunkRangeChars (index + 1) total⟩
    match oracle index with
    | .error e => ([req], errOf e)
    | .ok resp =>
      if resp.status = 202 then
        let rstatus' := if resp.data.isSome then some resp.status else rstatus
        let rdata' := if resp.data.isSome then resp.data else rdata
        if jsTruthyStr messageID then
          let r := sendLoop oracle total rest (index + 1) messageID rstatus'
            rdata' (hdr + 1)
          (req :: r.1, r.2)
        else
          match resp.data with
          | none => ([req], .errSetup)
          | some d =>
            let r := sendLoop oracle total rest (index + 1) d.message_id
              rstatus' rdata' (hdr + 1)
            (req :: r.1, r.2)
      else
        ([req], .exited)

/-- `async function sendChunkedMessage({...})`: split the file into chunks,
compress each chunk (`compressData`, external, passed as a function; it is
applied chunk-wise so the chunk count is preserved), then drive the upload
loop with `result = {status: null, data: null}`, `messageID` undefined and no
header set generated yet. -/
def sendChunkedMessage (oracle : Nat → Except AxiosFailure HttpResp)
    (compressData : List Nat → List Nat) (fileContent : List Nat) :
    List SendRequest × SendOutcome :=
  let splitChunks := splitIntoChunks fileContent
  let chunks := splitChunks.map compressData
  sendLoop oracle chunks.length chunks 0 none none none 0

/-- A download response as seen by `readMessage`: HTTP status, body
(coerced to string by `chunkedMessage += response.data`), and the
`mex-chunk-range` header (`none` models an absent header). -/
structure GetResp where
  status : Nat
  data : String
  chunkRange : Option (List Char)
deriving DecidableEq

/-- Target URL of a download request: `inbox` is
`{url}/messageexchange/{mailboxID}/inbox/{messageID}`, `inboxChunk idx` is
`{url}/messageexchange/{mailboxID}/inbox/{messageID}/{idx}` where `idx` is
the JS number `currentChunk + 1` taken from the previous response's
chunk-range header. -/
inductive ReadEndpoint
  | inbox
  | inboxChunk (idx : Int)
deriving DecidableEq

/-- One GET issued by `readMessage`: its endpoint and the serial number of
the `generateHeaders` invocation whose header set it carries. -/
structure ReadRequest where
  endpoint : ReadEndpoint
  headerToken : Nat
deriving DecidableEq

/-- Result of `readMessage`: `ok` is a normal return (for status 200 the
response itself, for the chunked path `{status: 206, data: chunkedMessage}`);
`exited` is `process.exit(1)` (bad initial status, or any error thrown inside
the `try` — including a transport failure of an in-loop request and the
`TypeError` from a missing chunk-range header); `raised` is an uncaught
rejection (the initial `axios.get` sits outside the `try` block); `outOfFuel`
is a modelling artifact bounding the unboundedly many iterations the JS
`do ... while (true)` loop may perform. -/
inductive ReadOutcome
  | ok (status : Nat) (data : String)
  | exited
  | raised (e : AxiosFailure)
  | outOfFuel
deriving DecidableEq

/-- The `do ... while (true)` chunk-fetch loop of `readMessage`, entered with
the current response.  Per iteration: append `response.data` to the
accumulator, read and parse `mex-chunk-range` (an absent header throws, which
the `catch` turns into `process.exit(1)`), and if `currentChunk < totalChunks`
(false whenever either side is NaN/`undefined`) generate a fresh header set
and GET the next chunk at index `currentChunk + 1`; otherwise break and
return `{status: 206, data: chunkedMessage}`.  The status of these in-loop
responses is never inspected.  `reqIdx` numbers the operation's requests (for
the oracle), `hdr` counts `generateHeaders` invocations. -/
def readLoop (oracle : Nat → Except AxiosFailure GetResp) :
    Nat → Nat → Nat → String → GetResp → List ReadRequest × ReadOutcome
  | 0, _, _, _, _ => ([], .outOfFuel)
  | fuel + 1, reqIdx, hdr, acc, resp =>
    let acc' := acc ++ resp.data
    match resp.chunkRange with
    | none => ([], .exited)
    | some cr =>
      match parseChunkRange cr with
      | (some cur, some tot) =>
        if cur < tot then
          let req : ReadRequest := ⟨.inboxChunk (cur + 1), hdr⟩
          match oracle reqIdx with
          | .error _ => ([req], .exited)
          | .ok resp2 =>
            let r := readLoop oracle fuel (reqIdx + 1) (hdr + 1) acc' resp2
            (req :: r.1, r.2)
        else ([], .ok 206 acc')
      | (_, _) => ([], .ok 206 acc')

/-- `async function readMessage({...})` from `src/get/read_message.js`: one
header set is generated, the message is fetched from the inbox endpoint (this
first `await axios.get` sits outside the `try`, so its transport failure is
an uncaught rejection), then: status 200 returns the response as is, status
206 enters the chunk-fetch loop, and any other status exits the process. -/
def readMessage (oracle : Nat → Except AxiosFailure GetResp) (fuel : Nat) :
    List ReadRequest × ReadOutcome :=
  let req0 : ReadRequest := ⟨.inbox, 0⟩
  match oracle 0 with
  | .error e => ([req0], .raised e)
  | .ok resp =>
    if resp.status = 200 then ([req0], .ok resp.status resp.data)
    else if resp.status = 206 then
      let r := readLoop oracle fuel 1 1 ("") resp
      (req0 :: r.1, r.2)
    else ([req0], .exited)

/-!
Concrete fixtures: small oracles and payloads used to instantiate the
theorems below on explicit inputs.
-/

/-- A three-byte payload (fits in a single chunk). -/
def w2P : List Nat := [1, 2, 3]

/-- A payload one byte over the chunk size limit, splitting into two chunks. -/
def w3P : List Nat := List.replicate (CHUNK_SIZE + 1) 0

/-- A server-assigned message identifier. -/
def wMsgId : String := "M1"

/-- An upload response body carrying the message identifier. -/
def wRespData : RespData := ⟨some wMsgId, ("ok")⟩

/-- Upload server that accepts every chunk with body `wRespData`. -/
def wOracle202 : Nat → Except AxiosFailure HttpResp :=
  fun _ => .ok ⟨202, some wRespData⟩

/-- Upload server answering 202 with a message identifier on the first
request and bare 202s afterwards. -/
def w3Oracle : Nat → Except AxiosFailure HttpResp :=
  fun k => if k = 0 then .ok ⟨202, some wRespData⟩ else .ok ⟨202, none⟩

/-- Upload server answering 500 with a null body. -/
def w5Oracle : Nat → Except AxiosFailure HttpResp := fun _ => .ok ⟨500, none⟩

/-- Download server answering 404. -/
def w5ReadOracle : Nat → Except AxiosFailure GetResp :=
  fun _ => .ok ⟨404, ("nf"), none⟩

/-- Download server: chunk 1 of 2 with status 206, then chunk 2 of 2 with
status 500. -/
def cx5ReadOracle : Nat → Except AxiosFailure GetResp :=
  fun k =>
    if k = 0 then .ok ⟨206, ("a"), some (chunkRangeChars 1 2)⟩
    else .ok ⟨500, ("b"), some (chunkRangeChars 2 2)⟩

/-- Upload server answering 202 with a null body. -/
def cx4Oracle : Nat → Except AxiosFailure HttpResp := fun _ => .ok ⟨202, none⟩

/-- Download server answering 206 with the malformed chunk-range `"abc"`. -/
def cx7Oracle : Nat → Except AxiosFailure GetResp :=
  fun _ => .ok ⟨206, ("a"), some ['a', 'b', 'c']⟩

/-- Download server whose first chunk-range is the malformed `":3"` (its
current-chunk field is the empty string, which JS `Number` coerces to 0). -/
def cx7bOracle : Nat → Except AxiosFailure GetResp :=
  fun k =>
    if k = 0 then .ok ⟨206, ("a"), some (':' :: natChars 3)⟩
    else .ok ⟨200, ("b"), some (chunkRangeChars 1 1)⟩

/-- Download transport that never gets a response. -/
def cx8ReadOracle : Nat → Except AxiosFailure GetResp := fun _ => .error .request

/-- Upload transport that never gets a response. -/
def w8Oracle : Nat → Except AxiosFailure HttpResp := fun _ => .error .request

/-- Download server: chunk 1 of 2 with status 206, then a transport failure. -/
def w8cReadOracle : Nat → Except AxiosFailure GetResp :=
  fun k =>
    if k = 0 then .ok ⟨206, ("a"), some (chunkRangeChars 1 2)⟩
    else .error .setup

/-- Bodies of the three-chunk download example. -/
def w6Bodies : Nat → String :=
  fun k => if k = 0 then ("a") else if k = 1 then ("b") else ("c")

/-- Statuses of the three-chunk download example (206, 206, 200). -/
def w6Statuses : Nat → Nat := fun k => if k = 0 then 206 else if k = 1 then 206 else 200

/-- Download server delivering a message in three chunks with ranges
`1:3`, `2:3`, `3:3`. -/
def w6Oracle : Nat → Except AxiosFailure GetResp :=
  fun k => .ok ⟨w6Statuses k, w6Bodies k, some (chunkRangeChars (k + 1) 3)⟩

/-- Download server answering a stand-alone 200 message. -/
def w9ReadOracle : Nat → Except AxiosFailure GetResp :=
  fun _ => .ok ⟨200, ("solo"), none⟩

/-! ### Lemmas about the chunk splitter -/

theorem chunk_size_pos : 0 < CHUNK_SIZE := by decide

theorem splitGo_flatten : ∀ (fuel : Nat) (buf : List Nat), buf.length ≤ fuel →
    (splitGo fuel buf).flatten = buf := by
  intro fuel
  induction fuel with
  | zero =>
    intro buf h
    cases buf with
    | nil => rfl
    | cons b bs => simp at h
  | succ fuel ih =>
    intro buf h
    cases buf with
    | nil => rfl
    | cons b bs =>
      have hlen : ((b :: bs).drop CHUNK_SIZE).length ≤ fuel := by
        rw [List.length_drop]
        have := chunk_size_pos
        simp only [List.length_cons] at h ⊢
        omega
      simp only [splitGo, List.flatten_cons, ih _ hlen, List.take_append_drop]

theorem splitGo_length : ∀ (fuel : Nat) (buf : List Nat), buf.length ≤ fuel →
    (splitGo fuel buf).length = (buf.length + CHUNK_SIZE - 1) / CHUNK_SIZE := by
  intro fuel
  induction fuel with
  | zero =>
    intro buf h
    cases buf with
    | nil =>
      simp only [splitGo, List.length_nil]
      rw [Nat.div_eq_of_lt (by have := chunk_size_pos; omega)]
    | cons b bs => simp at h
  | succ fuel ih =>
    intro buf h
    cases buf with
    | nil =>
      simp only [splitGo, List.length_nil]
      rw [Nat.div_eq_of_lt (by have := chunk_size_pos; omega)]
    | cons b bs =>
      have hC := chunk_size_pos
      have hlen : ((b :: bs).drop CHUNK_SIZE).length ≤ fuel := by
        rw [List.length_drop]
        simp only [List.length_cons] at h ⊢
        omega
      simp only [splitGo, List.length_cons, ih _ hlen, List.length_drop]
      rcases le_or_lt (bs.length + 1) CHUNK_SIZE with hle | hgt
      · have h2 : bs.length + 1 - CHUNK_SIZE = 0 := by omega
        have h3 : bs.length + 1 + CHUNK_SIZE - 1 = bs.length + CHUNK_SIZE := by
          omega
        rw [h2, h3, Nat.add_div_right _ hC]
        rw [Nat.div_eq_of_lt (by omega), Nat.div_eq_of_lt (by omega)]
      · have h2 : bs.length + 1 - CHUNK_SIZE + CHUNK_SIZE - 1 =
            (bs.length - CHUNK_SIZE) + CHUNK_SIZE := by omega
        have h3 : bs.length + 1 + CHUNK_SIZE - 1 = bs.length + CHUNK_SIZE := by
          omega
        have h4 : bs.length = (bs.length - CHUNK_SIZE) + CHUNK_SIZE := by omega
        rw [h2, h3, Nat.add_div_right _ hC, h4, Nat.add_div_right _ hC,
          Nat.add_div_right _ hC]
        have h5 : bs.length - CHUNK_SIZE + CHUNK_SIZE - CHUNK_SIZE =
            bs.length - CHUNK_SIZE := by omega
        rw [h5]

theorem splitIntoChunks_length (buffer : List Nat) :
    (splitIntoChunks buffer).length =
      (buffer.length + CHUNK_SIZE - 1) / CHUNK_SIZE :=
  splitGo_length _ _ le_rfl

theorem splitGo_ne_nil (fuel : Nat) (buf : List Nat) (hb : buf ≠ [])
    (h : buf.length ≤ fuel) : splitGo fuel buf ≠ [] := by
  cases buf with
  | nil => exact absurd rfl hb
  | cons b bs =>
    cases fuel with
    | zero => simp at h
    | succ fuel => simp [splitGo]

theorem splitGo_getLastD : ∀ (fuel : Nat) (buf : List Nat), buf ≠ [] →
    buf.length ≤ fuel → ∀ d : List Nat,
    0 < ((splitGo fuel buf).getLastD d).length ∧
      ((splitGo fuel buf).getLastD d).length ≤ CHUNK_SIZE := by
  intro fuel
  induction fuel with
  | zero =>
    intro buf hb h
    cases buf with
    | nil => exact absurd rfl hb
    | cons b bs => simp at h
  | succ fuel ih =>
    intro buf hb h d
    cases buf with
    | nil => exact absurd rfl hb
    | cons b bs =>
      have hC := chunk_size_pos
      simp only [splitGo]
      rcases le_or_lt (b :: bs).length CHUNK_SIZE with hle | hgt
      · have hdrop : (b :: bs).drop CHUNK_SIZE = [] := by
          rw [List.drop_eq_nil_iff]
          exact hle
        rw [hdrop]
        simp only [splitGo, List.getLastD_cons, List.getLastD_nil]
        rw [List.length_take]
        refine ⟨lt_min hC (by simp), min_le_left _ _⟩
      · have hne : (b :: bs).drop CHUNK_SIZE ≠ [] := by
          intro hnil
          rw [List.drop_eq_nil_iff] at hnil
          omega
        have hlen : ((b :: bs).drop CHUNK_SIZE).length ≤ fuel := by
          rw [List.length_drop]
          simp only [List.length_cons] at h ⊢
          omega
        obtain ⟨c, cs, hgoeq⟩ :=
          List.exists_cons_of_ne_nil (splitGo_ne_nil fuel _ hne hlen)
        rw [hgoeq, List.getLastD_cons]
        have h2 := ih _ hne hlen ((b :: bs).take CHUNK_SIZE)
        rw [hgoeq] at h2
        exact h2

theorem splitGo_dropLast : ∀ (fuel : Nat) (buf : List Nat),
    buf.length ≤ fuel → ∀ c ∈ (splitGo fuel buf).dropLast,
    c.length = CHUNK_SIZE := by
  intro fuel
  induction fuel with
  | zero =>
    intro buf h
    cases buf with
    | nil => simp [splitGo]
    | cons b bs => simp at h
  | succ fuel ih =>
    intro buf h c hc
    cases buf with
    | nil => simp [splitGo] at hc
    | cons b bs =>
      have hC := chunk_size_pos
      simp only [splitGo] at hc
      rcases le_or_lt (b :: bs).length CHUNK_SIZE with hle | hgt
      · have hdrop : (b :: bs).drop CHUNK_SIZE = [] := by
          rw [List.drop_eq_nil_iff]
          exact hle
        rw [hdrop] at hc
        simp [splitGo] at hc
      · have hne : (b :: bs).drop CHUNK_SIZE ≠ [] := by
          intro hnil
          rw [List.drop_eq_nil_iff] at hnil
          omega
        have hlen : ((b :: bs).drop CHUNK_SIZE).length ≤ fuel := by
          rw [List.length_drop]
          simp only [List.length_cons] at h ⊢
          omega
        obtain ⟨c0, cs, hgoeq⟩ :=
          List.exists_cons_of_ne_nil (splitGo_ne_nil fuel _ hne hlen)
        rw [hgoeq, List.dropLast_cons₂, List.mem_cons] at hc
        rcases hc with hc | hc
        · subst hc
          rw [List.length_take]
          simp only [List.length_cons] at hgt ⊢
          exact min_eq_left (by omega)
        · exact ih _ hlen c (by rw [hgoeq]; exact hc)

/-! ### Lemmas about decimal rendering and chunk-range parsing -/

theorem natCharsGo_eq_digits : ∀ (fuel n : Nat) (acc : List Char),
    n ≤ fuel →
    natCharsGo fuel n acc = ((Nat.digits 10 n).reverse.map digitChar) ++ acc := by
  intro fuel
  induction fuel with
  | zero =>
    intro n acc h
    interval_cases n
    simp [natCharsGo]
  | succ fuel ih =>
    intro n acc h
    cases n with
    | zero => simp [natCharsGo]
    | succ m =>
      have hdiv : (m + 1) / 10 ≤ fuel := by
        have := Nat.div_lt_self (Nat.succ_pos m) (by omega : 1 < 10)
        omega
      rw [natCharsGo, ih _ _ hdiv,
        Nat.digits_def' (by omega : 1 < 10) (Nat.succ_pos m)]
      simp [List.map_append]

theorem digitChar_isDigit (d : Nat) (h : d < 10) : (digitChar d).isDigit := by
  interval_cases d <;> decide

theorem digitVal_digitChar (d : Nat) (h : d < 10) : digitVal (digitChar d) = d := by
  interval_cases d <;> decide

theorem natChars_all_isDigit (n : Nat) : (natChars n).all Char.isDigit := by
  rw [natChars]
  rcases Nat.eq_zero_or_pos n with h0 | hpos
  · simp [h0]
  · rw [if_neg (by omega), natCharsGo_eq_digits n n [] le_rfl]
    simp only [List.append_nil, List.all_eq_true, List.mem_map,
      List.mem_reverse]
    rintro c ⟨d, hd, rfl⟩
    exact digitChar_isDigit d (Nat.digits_lt_base (by omega) hd)

theorem natChars_ne_nil (n : Nat) : natChars n ≠ [] := by
  rw [natChars]
  rcases Nat.eq_zero_or_pos n with h0 | hpos
  · simp [h0]
  · rw [if_neg (by omega), natCharsGo_eq_digits n n [] le_rfl]
    simp only [List.append_nil, ne_eq, List.map_eq_nil_iff,
      List.reverse_eq_nil_iff]
    exact Nat.digits_ne_nil_iff_ne_zero.mpr (by omega)

theorem foldl_digits_val : ∀ (ds : List Nat), (∀ d ∈ ds, d < 10) → ∀ a : Nat,
    ((ds.reverse.map digitChar).foldl (fun a c => a * 10 + digitVal c) a) =
      a * 10 ^ ds.length + Nat.ofDigits 10 ds := by
  intro ds
  induction ds with
  | nil => intro _ a; simp [Nat.ofDigits]
  | cons d ds ih =>
    intro hd a
    simp only [List.reverse_cons, List.map_append, List.foldl_append,
      List.map_cons, List.map_nil, List.foldl_cons, List.foldl_nil]
    rw [ih (fun x hx => hd x (List.mem_cons_of_mem _ hx)) a,
      digitVal_digitChar d (hd d (List.mem_cons_self d ds)), Nat.ofDigits_cons,
      List.length_cons]
    ring

theorem jsNumberL_natChars (n : Nat) : jsNumberL (natChars n) = some ((n : Nat) : Int) := by
  rcases Nat.eq_zero_or_pos n with h0 | hpos
  · subst h0; decide
  · rw [jsNumberL, if_neg (by simp [natChars_ne_nil n]),
      if_pos (natChars_all_isDigit n)]
    have hch : natChars n = (Nat.digits 10 n).reverse.map digitChar := by
      rw [natChars, if_neg (by omega), natCharsGo_eq_digits n n [] le_rfl,
        List.append_nil]
    rw [hch, foldl_digits_val _ (fun d hd => Nat.digits_lt_base (by omega) hd) 0]
    simp [Nat.ofDigits_digits]

theorem natChars_no_colon (n : Nat) : ':' ∉ natChars n := by
  intro hmem
  have hall := natChars_all_isDigit n
  rw [List.all_eq_true] at hall
  have := hall _ hmem
  simp at this

theorem jsSplitGo_no_sep (sep : Char) : ∀ (l acc : List Char), sep ∉ l →
    jsSplitGo sep l acc = [acc.reverse ++ l] := by
  intro l
  induction l with
  | nil => intro acc _; simp [jsSplitGo]
  | cons c cs ih =>
    intro acc hns
    rw [jsSplitGo, if_neg (by simp at hns; exact fun h => hns.1 h.symm),
      ih _ (by simp at hns; exact hns.2)]
    simp

theorem jsSplitGo_sep (sep : Char) (l2 : List Char) : ∀ (l1 acc : List Char),
    sep ∉ l1 →
    jsSplitGo sep (l1 ++ sep :: l2) acc =
      (acc.reverse ++ l1) :: jsSplitGo sep l2 [] := by
  intro l1
  induction l1 with
  | nil =>
    intro acc _
    simp [jsSplitGo]
  | cons c cs ih =>
    intro acc hns
    rw [List.cons_append, jsSplitGo,
      if_neg (by simp at hns; exact fun h => hns.1 h.symm),
      ih _ (by simp at hns; exact hns.2)]
    simp

theorem jsSplit_pair (sep : Char) (l1 l2 : List Char) (h1 : sep ∉ l1)
    (h2 : sep ∉ l2) : jsSplit sep (l1 ++ sep :: l2) = [l1, l2] := by
  rw [jsSplit, jsSplitGo_sep sep l2 l1 [] h1, jsSplitGo_no_sep sep l2 [] h2]
  simp

theorem parseChunkRange_chunkRangeChars (cur total : Nat) :
    parseChunkRange (chunkRangeChars cur total) =
      (some ((cur : Nat) : Int), some ((total : Nat) : Int)) := by
  rw [parseChunkRange, chunkRangeChars,
    jsSplit_pair ':' _ _ (natChars_no_colon cur) (natChars_no_colon total)]
  simp [jsNumberL_natChars]

/-! ### Step lemmas for the upload loop -/

theorem sendLoop_nil (oracle : Nat → Except AxiosFailure HttpResp)
    (total index : Nat) (m : Option String) (rs : Option Nat)
    (rd : Option RespData) (hdr : Nat) :
    sendLoop oracle total [] index m rs rd hdr = ([], .ok rs rd) := rfl

theorem sendLoop_cons_error (oracle : Nat → Except AxiosFailure HttpResp)
    (total : Nat) (c : List Nat) (rest : List (List Nat)) (index : Nat)
    (m : Option String) (rs : Option Nat) (rd : Option RespData) (hdr : Nat)
    (e : AxiosFailure) (h : oracle index = .error e) :
    sendLoop oracle total (c :: rest) index m rs rd hdr =
      ([⟨sendEndpointFor m index, hdr, chunkRangeChars (index + 1) total⟩],
        errOf e) := by
  simp [sendLoop, h]

theorem sendLoop_cons_bad (oracle : Nat → Except AxiosFailure HttpResp)
    (total : Nat) (c : List Nat) (rest : List (List Nat)) (index : Nat)
    (m : Option String) (rs : Option Nat) (rd : Option RespData) (hdr : Nat)
    (resp : HttpResp) (h : oracle index = .ok resp)
    (hst : resp.status ≠ 202) :
    sendLoop oracle total (c :: rest) index m rs rd hdr =
      ([⟨sendEndpointFor m index, hdr, chunkRangeChars (index + 1) total⟩],
        .exited) := by
  simp [sendLoop, h, hst]

theorem sendLoop_cons_truthy (oracle : Nat → Except AxiosFailure HttpResp)
    (total : Nat) (c : List Nat) (rest : List (List Nat)) (index : Nat)
    (m : Option String) (rs : Option Nat) (rd : Option RespData) (hdr : Nat)
    (resp : HttpResp) (h : oracle index = .ok resp) (hst : resp.status = 202)
    (hm : jsTruthyStr m = true) :
    sendLoop oracle total (c :: rest) index m rs rd hdr =
      (⟨sendEndpointFor m index, hdr, chunkRangeChars (index + 1) total⟩ ::
          (sendLoop oracle total rest (index + 1) m
            (if resp.data.isSome then some resp.status else rs)
            (if resp.data.isSome then resp.data else rd) (hdr + 1)).1,
        (sendLoop oracle total rest (index + 1) m
          (if resp.data.isSome then some resp.status else rs)
          (if resp.data.isSome then resp.data else rd) (hdr + 1)).2) := by
  simp [sendLoop, h, hst, hm]

theorem sendLoop_cons_truthy_some (oracle : Nat → Except AxiosFailure HttpResp)
    (total : Nat) (c : List Nat) (rest : List (List Nat)) (index : Nat)
    (m : Option String) (rs : Option Nat) (rd : Option RespData) (hdr : Nat)
    (d : RespData) (h : oracle index = .ok ⟨202, some d⟩)
    (hm : jsTruthyStr m = true) :
    sendLoop oracle total (c :: rest) index m rs rd hdr =
      (⟨sendEndpointFor m index, hdr, chunkRangeChars (index + 1) total⟩ ::
          (sendLoop oracle total rest (index + 1) m (some 202) (some d)
            (hdr + 1)).1,
        (sendLoop oracle total rest (index + 1) m (some 202) (some d)
          (hdr + 1)).2) := by
  simp [sendLoop, h, hm]

theorem sendLoop_cons_falsy_none (oracle : Nat → Except AxiosFailure HttpResp)
    (total : Nat) (c : List Nat) (rest : List (List Nat)) (index : Nat)
    (m : Option String) (rs : Option Nat) (rd : Option RespData) (hdr : Nat)
    (h : oracle index = .ok ⟨202, none⟩) (hm : jsTruthyStr m = false) :
    sendLoop oracle total (c :: rest) index m rs rd hdr =
      ([⟨sendEndpointFor m index, hdr, chunkRangeChars (index + 1) total⟩],
        .errSetup) := by
  simp [sendLoop, h, hm]

theorem sendLoop_cons_falsy_some (oracle : Nat → Except AxiosFailure HttpResp)
    (total : Nat) (c : List Nat) (rest : List (List Nat)) (index : Nat)
    (m : Option String) (rs : Option Nat) (rd : Option RespData) (hdr : Nat)
    (d : RespData) (h : oracle index = .ok ⟨202, some d⟩)
    (hm : jsTruthyStr m = false) :
    sendLoop oracle total (c :: rest) index m rs rd hdr =
      (⟨sendEndpointFor m index, hdr, chunkRangeChars (index + 1) total⟩ ::
          (sendLoop oracle total rest (index + 1) d.message_id (some 202)
            (some d) (hdr + 1)).1,
        (sendLoop oracle total rest (index + 1) d.message_id (some 202)
          (some d) (hdr + 1)).2) := by
  simp [sendLoop, h, hm]

/-! ### Step lemmas for the download loop -/

theorem readLoop_zero (oracle : Nat → Except AxiosFailure GetResp)
    (reqIdx hdr : Nat) (acc : String) (resp : GetResp) :
    readLoop oracle 0 reqIdx hdr acc resp = ([], .outOfFuel) := rfl

theorem readLoop_noheader (oracle : Nat → Except AxiosFailure GetResp)
    (fuel reqIdx hdr : Nat) (acc : String) (resp : GetResp)
    (h : resp.chunkRange = none) :
    readLoop oracle (fuel + 1) reqIdx hdr acc resp = ([], .exited) := by
  simp [readLoop, h]

theorem readLoop_break (oracle : Nat → Except AxiosFailure GetResp)
    (fuel reqIdx hdr : Nat) (acc : String) (resp : GetResp) (cr : List Char)
    (cur tot : Int) (h : resp.chunkRange = some cr)
    (hp : parseChunkRange cr = (some cur, some tot)) (hge : ¬cur < tot) :
    readLoop oracle (fuel + 1) reqIdx hdr acc resp =
      ([], .ok 206 (acc ++ resp.data)) := by
  simp [readLoop, h, hp, hge]

theorem readLoop_break_nan (oracle : Nat → Except AxiosFailure GetResp)
    (fuel reqIdx hdr : Nat) (acc : String) (resp : GetResp) (cr : List Char)
    (h : resp.chunkRange = some cr)
    (hp : (parseChunkRange cr).1 = none ∨ (parseChunkRange cr).2 = none) :
    readLoop oracle (fuel + 1) reqIdx hdr acc resp =
      ([], .ok 206 (acc ++ resp.data)) := by
  rcases hpc : parseChunkRange cr with ⟨pc, pt⟩
  rw [hpc] at hp
  rcases pc with _ | pcv
  · rcases pt with _ | ptv
    · simp [readLoop, h, hpc]
    · simp [readLoop, h, hpc]
  · rcases pt with _ | ptv
    · simp [readLoop, h, hpc]
    · simp at hp

theorem readLoop_fetch_error (oracle : Nat → Except AxiosFailure GetResp)
    (fuel reqIdx hdr : Nat) (acc : String) (resp : GetResp) (cr : List Char)
    (cur tot : Int) (e : AxiosFailure) (h : resp.chunkRange = some cr)
    (hp : parseChunkRange cr = (some cur, some tot)) (hlt : cur < tot)
    (ho : oracle reqIdx = .error e) :
    readLoop oracle (fuel + 1) reqIdx hdr acc resp =
      ([⟨.inboxChunk (cur + 1), hdr⟩], .exited) := by
  simp [readLoop, h, hp, hlt, ho]

theorem readLoop_fetch_ok (oracle : Nat → Except AxiosFailure GetResp)
    (fuel reqIdx hdr : Nat) (acc : String) (resp : GetResp) (cr : List Char)
    (cur tot : Int) (resp2 : GetResp) (h : resp.chunkRange = some cr)
    (hp : parseChunkRange cr = (some cur, some tot)) (hlt : cur < tot)
    (ho : oracle reqIdx = .ok resp2) :
    readLoop oracle (fuel + 1) reqIdx hdr acc resp =
      (⟨.inboxChunk (cur + 1), hdr⟩ ::
          (readLoop oracle fuel (reqIdx + 1) (hdr + 1) (acc ++ resp.data)
            resp2).1,
        (readLoop oracle fuel (reqIdx + 1) (hdr + 1) (acc ++ resp.data)
          resp2).2) := by
  simp [readLoop, h, hp, hlt, ho]

theorem readMessage_error (oracle : Nat → Except AxiosFailure GetResp)
    (fuel : Nat) (e : AxiosFailure) (h : oracle 0 = .error e) :
    readMessage oracle fuel = ([⟨.inbox, 0⟩], .raised e) := by
  simp [readMessage, h]

theorem readMessage_200 (oracle : Nat → Except AxiosFailure GetResp)
    (fuel : Nat) (resp : GetResp) (h : oracle 0 = .ok resp)
    (hst : resp.status = 200) :
    readMessage oracle fuel = ([⟨.inbox, 0⟩], .ok resp.status resp.data) := by
  simp [readMessage, h, hst]

theorem readMessage_206 (oracle : Nat → Except AxiosFailure GetResp)
    (fuel : Nat) (resp : GetResp) (h : oracle 0 = .ok resp)
    (hst : resp.status = 206) :
    readMessage oracle fuel =
      ((⟨.inbox, 0⟩ : ReadRequest) :: (readLoop oracle fuel 1 1 ("") resp).1,
        (readLoop oracle fuel 1 1 ("") resp).2) := by
  simp [readMessage, h, hst]

theorem readMessage_badstatus (oracle : Nat → Except AxiosFailure GetResp)
    (fuel : Nat) (resp : GetResp) (h : oracle 0 = .ok resp)
    (h200 : resp.status ≠ 200) (h206 : resp.status ≠ 206) :
    readMessage oracle fuel = ([⟨.inbox, 0⟩], .exited) := by
  simp [readMessage, h, h200, h206]

/-! ### Trace and outcome lemmas for the upload loop -/

theorem jsTruthyStr_ne (m : String) (hm : m ≠ "") :
    jsTruthyStr (some m) = true := by
  have hie : m.isEmpty = false := by
    cases h : m.isEmpty with
    | false => rfl
    | true => exact absurd ((String.isEmpty_iff m).mp h) hm
  simp [jsTruthyStr, hie]

theorem sendEndpointFor_truthy (m : String) (hm : m ≠ "") (index : Nat) :
    sendEndpointFor (some m) index = .outboxChunk m (index + 1) := by
  have hie : m.isEmpty = false := by
    cases h : m.isEmpty with
    | false => rfl
    | true => exact absurd ((String.isEmpty_iff m).mp h) hm
  simp [sendEndpointFor, hie]

theorem sendLoop_headerToken (oracle : Nat → Except AxiosFailure HttpResp)
    (total : Nat) : ∀ (cs : List (List Nat)) (index : Nat)
    (m : Option String) (rs : Option Nat) (rd : Option RespData)
    (hdr j : Nat) (r : SendRequest),
    ((sendLoop oracle total cs index m rs rd hdr).1)[j]? = some r →
    r.headerToken = hdr + j := by
  intro cs
  induction cs with
  | nil =>
    intro index m rs rd hdr j r hj
    rw [sendLoop_nil] at hj
    simp at hj
  | cons c rest ih =>
    intro index m rs rd hdr j r hj
    rcases ho : oracle index with e | resp
    · rw [sendLoop_cons_error oracle total c rest index m rs rd hdr e ho] at hj
      cases j with
      | zero =>
        simp only [List.getElem?_cons_zero, Option.some.injEq] at hj
        rw [← hj]
        rfl
      | succ j => simp at hj
    · by_cases hst : resp.status = 202
      · cases hm : jsTruthyStr m with
        | true =>
          rw [sendLoop_cons_truthy oracle total c rest index m rs rd hdr resp
            ho hst hm] at hj
          cases j with
          | zero =>
            simp only [List.getElem?_cons_zero, Option.some.injEq] at hj
            rw [← hj]
            rfl
          | succ j =>
            rw [List.getElem?_cons_succ] at hj
            have h2 := ih (index + 1) m _ _ (hdr + 1) j r hj
            omega
        | false =>
          rcases hd : resp.data with _ | d
          · have hresp : resp = ⟨202, none⟩ := by
              cases resp
              simp only at hst hd
              rw [hst, hd]
            rw [hresp] at ho
            rw [sendLoop_cons_falsy_none oracle total c rest index m rs rd hdr
              ho hm] at hj
            cases j with
            | zero =>
              simp only [List.getElem?_cons_zero, Option.some.injEq] at hj
              rw [← hj]
              rfl
            | succ j => simp at hj
          · have hresp : resp = ⟨202, some d⟩ := by
              cases resp
              simp only at hst hd
              rw [hst, hd]
            rw [hresp] at ho
            rw [sendLoop_cons_falsy_some oracle total c rest index m rs rd hdr
              d ho hm] at hj
            cases j with
            | zero =>
              simp only [List.getElem?_cons_zero, Option.some.injEq] at hj
              rw [← hj]
              rfl
            | succ j =>
              rw [List.getElem?_cons_succ] at hj
              have h2 := ih (index + 1) d.message_id _ _ (hdr + 1) j r hj
              omega
      · rw [sendLoop_cons_bad oracle total c rest index m rs rd hdr resp ho
          hst] at hj
        cases j with
        | zero =>
          simp only [List.getElem?_cons_zero, Option.some.injEq] at hj
          rw [← hj]
          rfl
        | succ j => simp at hj

theorem sendLoop_truthy_trace (oracle : Nat → Except AxiosFailure HttpResp)
    (total : Nat) (m : String) (hm : m ≠ "") :
    ∀ (cs : List (List Nat)) (index : Nat) (rs : Option Nat)
    (rd : Option RespData) (hdr : Nat),
    (∀ k, k < cs.length → ∃ r, oracle (index + k) = .ok r ∧ r.status = 202) →
    (sendLoop oracle total cs index (some m) rs rd hdr).1.length = cs.length ∧
    ∀ t, t < cs.length →
      ((sendLoop oracle total cs index (some m) rs rd hdr).1)[t]? =
        some ⟨.outboxChunk m (index + t + 1), hdr + t,
          chunkRangeChars (index + t + 1) total⟩ := by
  intro cs
  induction cs with
  | nil =>
    intro index rs rd hdr _
    rw [sendLoop_nil]
    exact ⟨rfl, fun t ht => absurd ht (by simp)⟩
  | cons c rest ih =>
    intro index rs rd hdr hor
    obtain ⟨r0, hro, hr0⟩ := hor 0 (by simp)
    rw [Nat.add_zero] at hro
    rw [sendLoop_cons_truthy oracle total c rest index (some m) rs rd hdr r0
      hro hr0 (jsTruthyStr_ne m hm)]
    have hor2 : ∀ k, k < rest.length →
        ∃ r, oracle (index + 1 + k) = .ok r ∧ r.status = 202 := by
      intro k hk
      have h2 := hor (k + 1) (by simp; omega)
      have he : index + (k + 1) = index + 1 + k := by omega
      rw [he] at h2
      exact h2
    obtain ⟨ihlen, ihget⟩ := ih (index + 1)
      (if r0.data.isSome then some r0.status else rs)
      (if r0.data.isSome then r0.data else rd) (hdr + 1) hor2
    constructor
    · simp [ihlen]
    · intro t ht
      cases t with
      | zero =>
        simp only [List.getElem?_cons_zero, Option.some.injEq]
        rw [sendEndpointFor_truthy m hm index]
        simp
      | succ t =>
        rw [List.getElem?_cons_succ]
        have h3 := ihget t (by simp at ht; omega)
        have e1 : index + 1 + t + 1 = index + (t + 1) + 1 := by omega
        have e2 : hdr + 1 + t = hdr + (t + 1) := by omega
        rw [e1, e2] at h3
        exact h3

theorem sendLoop_202_outcome (oracle : Nat → Except AxiosFailure HttpResp)
    (total : Nat) (d : Nat → RespData) :
    ∀ (cs : List (List Nat)) (index : Nat) (m : Option String)
    (rs : Option Nat) (rd : Option RespData) (hdr : Nat), cs ≠ [] →
    (∀ k, k < cs.length → oracle (index + k) = .ok ⟨202, some (d (index + k))⟩) →
    (sendLoop oracle total cs index m rs rd hdr).2 =
      .ok (some 202) (some (d (index + cs.length - 1))) := by
  intro cs
  induction cs with
  | nil => intro index m rs rd hdr hne _; exact absurd rfl hne
  | cons c rest ih =>
    intro index m rs rd hdr _ hor
    have hro := hor 0 (by simp)
    rw [Nat.add_zero] at hro
    have hor2 : ∀ k, k < rest.length →
        oracle (index + 1 + k) = .ok ⟨202, some (d (index + 1 + k))⟩ := by
      intro k hk
      have h2 := hor (k + 1) (by simp; omega)
      have he : index + (k + 1) = index + 1 + k := by omega
      rw [he] at h2
      exact h2
    cases hm : jsTruthyStr m with
    | true =>
      rw [sendLoop_cons_truthy_some oracle total c rest index m rs rd hdr
        (d index) hro hm]
      cases rest with
      | nil =>
        rw [sendLoop_nil]
        simp
      | cons c2 rest2 =>
        have h3 := ih (index + 1) m (some 202) (some (d index)) (hdr + 1)
          (by simp) hor2
        rw [h3]
        have he : index + 1 + (c2 :: rest2).length - 1 =
            index + (c :: c2 :: rest2).length - 1 := by simp; omega
        rw [he]
    | false =>
      rw [sendLoop_cons_falsy_some oracle total c rest index m rs rd hdr
        (d index) hro hm]
      cases rest with
      | nil =>
        rw [sendLoop_nil]
        simp
      | cons c2 rest2 =>
        have h3 := ih (index + 1) (d index).message_id (some 202)
          (some (d index)) (hdr + 1) (by simp) hor2
        rw [h3]
        have he : index + 1 + (c2 :: rest2).length - 1 =
            index + (c :: c2 :: rest2).length - 1 := by simp; omega
        rw [he]

theorem sendLoop_bad_at (oracle : Nat → Except AxiosFailure HttpResp)
    (total : Nat) (d : Nat → RespData) :
    ∀ (cs : List (List Nat)) (index : Nat) (m : Option String)
    (rs : Option Nat) (rd : Option RespData) (hdr j : Nat) (r : HttpResp),
    j < cs.length →
    (∀ k, k < j → oracle (index + k) = .ok ⟨202, some (d (index + k))⟩) →
    oracle (index + j) = .ok r → r.status ≠ 202 →
    (sendLoop oracle total cs index m rs rd hdr).1.length = j + 1 ∧
    (sendLoop oracle total cs index m rs rd hdr).2 = .exited := by
  intro cs
  induction cs with
  | nil =>
    intro index m rs rd hdr j r hj _ _ _
    simp at hj
  | cons c rest ih =>
    intro index m rs rd hdr j r hj hok hbad hst
    cases j with
    | zero =>
      rw [Nat.add_zero] at hbad
      rw [sendLoop_cons_bad oracle total c rest index m rs rd hdr r hbad hst]
      exact ⟨rfl, rfl⟩
    | succ j =>
      have hro := hok 0 (by omega)
      rw [Nat.add_zero] at hro
      have hok2 : ∀ k, k < j →
          oracle (index + 1 + k) = .ok ⟨202, some (d (index + 1 + k))⟩ := by
        intro k hk
        have h2 := hok (k + 1) (by omega)
        have he : index + (k + 1) = index + 1 + k := by omega
        rw [he] at h2
        exact h2
      have hbad2 : oracle (index + 1 + j) = .ok r := by
        have he : index + (j + 1) = index + 1 + j := by omega
        rw [he] at hbad
        exact hbad
      cases hm : jsTruthyStr m with
      | true =>
        rw [sendLoop_cons_truthy_some oracle total c rest index m rs rd hdr
          (d index) hro hm]
        have h3 := ih (index + 1) m (some 202) (some (d index)) (hdr + 1) j r
          (by simp at hj; omega) hok2 hbad2 hst
        simp only [List.length_cons]
        exact ⟨by rw [h3.1], h3.2⟩
      | false =>
        rw [sendLoop_cons_falsy_some oracle total c rest index m rs rd hdr
          (d index) hro hm]
        have h3 := ih (index + 1) (d index).message_id (some 202)
          (some (d index)) (hdr + 1) j r (by simp at hj; omega) hok2 hbad2 hst
        simp only [List.length_cons]
        exact ⟨by rw [h3.1], h3.2⟩

theorem sendLoop_error_at (oracle : Nat → Except AxiosFailure HttpResp)
    (total : Nat) (d : Nat → RespData) :
    ∀ (cs : List (List Nat)) (index : Nat) (m : Option String)
    (rs : Option Nat) (rd : Option RespData) (hdr j : Nat) (e : AxiosFailure),
    j < cs.length →
    (∀ k, k < j → oracle (index + k) = .ok ⟨202, some (d (index + k))⟩) →
    oracle (index + j) = .error e →
    (sendLoop oracle total cs index m rs rd hdr).1.length = j + 1 ∧
    (sendLoop oracle total cs index m rs rd hdr).2 = errOf e := by
  intro cs
  induction cs with
  | nil =>
    intro index m rs rd hdr j e hj _ _
    simp at hj
  | cons c rest ih =>
    intro index m rs rd hdr j e hj hok herr
    cases j with
    | zero =>
      rw [Nat.add_zero] at herr
      rw [sendLoop_cons_error oracle total c rest index m rs rd hdr e herr]
      exact ⟨rfl, rfl⟩
    | succ j =>
      have hro := hok 0 (by omega)
      rw [Nat.add_zero] at hro
      have hok2 : ∀ k, k < j →
          oracle (index + 1 + k) = .ok ⟨202, some (d (index + 1 + k))⟩ := by
        intro k hk
        have h2 := hok (k + 1) (by omega)
        have he : index + (k + 1) = index + 1 + k := by omega
        rw [he] at h2
        exact h2
      have herr2 : oracle (index + 1 + j) = .error e := by
        have he : index + (j + 1) = index + 1 + j := by omega
        rw [he] at herr
        exact herr
      cases hm : jsTruthyStr m with
      | true =>
        rw [sendLoop_cons_truthy_some oracle total c rest index m rs rd hdr
          (d index) hro hm]
        have h3 := ih (index + 1) m (some 202) (some (d index)) (hdr + 1) j e
          (by simp at hj; omega) hok2 herr2
        simp only [List.length_cons]
        exact ⟨by rw [h3.1], h3.2⟩
      | false =>
        rw [sendLoop_cons_falsy_some oracle total c rest index m rs rd hdr
          (d index) hro hm]
        have h3 := ih (index + 1) (d index).message_id (some 202)
          (some (d index)) (hdr + 1) j e (by simp at hj; omega) hok2 herr2
        simp only [List.length_cons]
        exact ⟨by rw [h3.1], h3.2⟩

/-! ### Trace and outcome lemmas for the download loop -/

theorem readLoop_headerToken (oracle : Nat → Except AxiosFailure GetResp) :
    ∀ (fuel reqIdx hdr : Nat) (acc : String) (resp : GetResp) (j : Nat)
    (r : ReadRequest),
    ((readLoop oracle fuel reqIdx hdr acc resp).1)[j]? = some r →
    r.headerToken = hdr + j := by
  intro fuel
  induction fuel with
  | zero =>
    intro reqIdx hdr acc resp j r hj
    rw [readLoop_zero] at hj
    simp at hj
  | succ fuel ih =>
    intro reqIdx hdr acc resp j r hj
    rcases hcr : resp.chunkRange with _ | cr
    · rw [readLoop_noheader oracle fuel reqIdx hdr acc resp hcr] at hj
      simp at hj
    · rcases hp : parseChunkRange cr with ⟨pc, pt⟩
      rcases pc with _ | cur
      · rw [readLoop_break_nan oracle fuel reqIdx hdr acc resp cr hcr
          (Or.inl (by rw [hp]))] at hj
        simp at hj
      · rcases pt with _ | tot
        · rw [readLoop_break_nan oracle fuel reqIdx hdr acc resp cr hcr
            (Or.inr (by rw [hp]))] at hj
          simp at hj
        · by_cases hlt : cur < tot
          · rcases ho : oracle reqIdx with e | resp2
            · rw [readLoop_fetch_error oracle fuel reqIdx hdr acc resp cr cur
                tot e hcr hp hlt ho] at hj
              cases j with
              | zero =>
                simp only [List.getElem?_cons_zero, Option.some.injEq] at hj
                rw [← hj]
                rfl
              | succ j => simp at hj
            · rw [readLoop_fetch_ok oracle fuel reqIdx hdr acc resp cr cur tot
                resp2 hcr hp hlt ho] at hj
              cases j with
              | zero =>
                simp only [List.getElem?_cons_zero, Option.some.injEq] at hj
                rw [← hj]
                rfl
              | succ j =>
                rw [List.getElem?_cons_succ] at hj
                have h2 := ih (reqIdx + 1) (hdr + 1) (acc ++ resp.data) resp2
                  j r hj
                omega
          · rw [readLoop_break oracle fuel reqIdx hdr acc resp cr cur tot hcr
              hp hlt] at hj
            simp at hj

theorem readMessage_headerToken (oracle : Nat → Except AxiosFailure GetResp)
    (fuel j : Nat) (r : ReadRequest)
    (hj : ((readMessage oracle fuel).1)[j]? = some r) : r.headerToken = j := by
  rcases ho : oracle 0 with e | resp
  · rw [readMessage_error oracle fuel e ho] at hj
    cases j with
    | zero =>
      simp only [List.getElem?_cons_zero, Option.some.injEq] at hj
      rw [← hj]
    | succ j => simp at hj
  · by_cases h200 : resp.status = 200
    · rw [readMessage_200 oracle fuel resp ho h200] at hj
      cases j with
      | zero =>
        simp only [List.getElem?_cons_zero, Option.some.injEq] at hj
        rw [← hj]
      | succ j => simp at hj
    · by_cases h206 : resp.status = 206
      · rw [readMessage_206 oracle fuel resp ho h206] at hj
        cases j with
        | zero =>
          simp only [List.getElem?_cons_zero, Option.some.injEq] at hj
          rw [← hj]
        | succ j =>
          rw [List.getElem?_cons_succ] at hj
          have h2 := readLoop_headerToken oracle fuel 1 1 "" resp j r hj
          omega
      · rw [readMessage_badstatus oracle fuel resp ho h200 h206] at hj
        cases j with
        | zero =>
          simp only [List.getElem?_cons_zero, Option.some.injEq] at hj
          rw [← hj]
        | succ j => simp at hj

theorem readLoop_assemble (oracle : Nat → Except AxiosFailure GetResp)
    (b : Nat → String) (s : Nat → Nat) (T : Nat)
    (hor : ∀ k, k < T →
      oracle k = .ok ⟨s k, b k, some (chunkRangeChars (k + 1) T)⟩) :
    ∀ (n j fuel : Nat) (acc : String), j + n + 1 = T → n + 1 ≤ fuel →
    readLoop oracle fuel (j + 1) (j + 1) acc
        ⟨s j, b j, some (chunkRangeChars (j + 1) T)⟩ =
      ((List.range' (j + 1) n).map
          (fun k => (⟨.inboxChunk ((k + 1 : Nat) : Int), k⟩ : ReadRequest)),
        .ok 206 ((List.range' j (n + 1)).foldl (fun a k => a ++ b k) acc)) := by
  intro n
  induction n with
  | zero =>
    intro j fuel acc hT hfuel
    cases fuel with
    | zero => omega
    | succ fuel =>
      rw [readLoop_break oracle fuel (j + 1) (j + 1) acc
        ⟨s j, b j, some (chunkRangeChars (j + 1) T)⟩
        (chunkRangeChars (j + 1) T) ((j + 1 : Nat) : Int) ((T : Nat) : Int)
        rfl (parseChunkRange_chunkRangeChars (j + 1) T) (by omega)]
      simp [List.range'_succ]
  | succ n ihn =>
    intro j fuel acc hT hfuel
    cases fuel with
    | zero => omega
    | succ fuel =>
      have hlt : ((j + 1 : Nat) : Int) < ((T : Nat) : Int) := by omega
      have ho2 : oracle (j + 1) =
          .ok ⟨s (j + 1), b (j + 1), some (chunkRangeChars (j + 2) T)⟩ :=
        hor (j + 1) (by omega)
      rw [readLoop_fetch_ok oracle fuel (j + 1) (j + 1) acc
        ⟨s j, b j, some (chunkRangeChars (j + 1) T)⟩
        (chunkRangeChars (j + 1) T) ((j + 1 : Nat) : Int) ((T : Nat) : Int)
        ⟨s (j + 1), b (j + 1), some (chunkRangeChars (j + 2) T)⟩
        rfl (parseChunkRange_chunkRangeChars (j + 1) T) hlt ho2]
      have hrec := ihn (j + 1) fuel (acc ++ b j) (by omega) (by omega)
      have he2 : j + 1 + 1 = j + 2 := by omega
      rw [he2] at hrec
      rw [hrec]
      have he3 : ((j + 1 : Nat) : Int) + 1 = ((j + 2 : Nat) : Int) := by omega
      rw [List.range'_succ (j + 1) n 1, List.range'_succ j (n + 1) 1]
      simp only [List.map_cons, List.foldl_cons, he2, he3]
      rw [List.range'_succ (j + 1) n 1]
      simp only [List.foldl_cons]

/-! ### Claim theorems -/

theorem sendChunkedMessage_def (oracle : Nat → Except AxiosFailure HttpResp)
    (compressData : List Nat → List Nat) (fileContent : List Nat) :
    sendChunkedMessage oracle compressData fileContent =
      sendLoop oracle ((splitIntoChunks fileContent).map compressData).length
        ((splitIntoChunks fileContent).map compressData) 0 none none none 0 :=
  rfl

/-- Claim C1: for every payload buffer `P`, concatenating in order the chunks
returned by `splitIntoChunks P` reproduces `P` exactly (round-trip of the
chunk splitter with the fixed chunk size limit `CHUNK_SIZE`). -/
theorem splitIntoChunks_roundtrip (P : List Nat) :
    (splitIntoChunks P).flatten = P :=
  splitGo_flatten P.length P le_rfl

/-- Claim C2: for every non-empty payload `P`, every chunk produced by
`splitIntoChunks P` except possibly the last has length exactly `CHUNK_SIZE`
(which is 10 * 1024 * 1024 bytes), and the last chunk has length greater
than 0 and at most `CHUNK_SIZE`. -/
theorem splitIntoChunks_chunk_bounds (P : List Nat) (h : P ≠ []) :
    CHUNK_SIZE = 10 * 1024 * 1024 ∧
    (∀ c ∈ (splitIntoChunks P).dropLast, c.length = CHUNK_SIZE) ∧
    0 < ((splitIntoChunks P).getLastD []).length ∧
    ((splitIntoChunks P).getLastD []).length ≤ CHUNK_SIZE :=
  ⟨rfl, splitGo_dropLast P.length P le_rfl,
    (splitGo_getLastD P.length P h le_rfl []).1,
    (splitGo_getLastD P.length P h le_rfl []).2⟩

/-- Witness for C2 at the concrete payload `[1, 2, 3]`. -/
theorem splitIntoChunks_chunk_bounds_witness :
    w2P ≠ [] ∧ 0 < ((splitIntoChunks w2P).getLastD []).length :=
  ⟨by decide, (splitIntoChunks_chunk_bounds w2P (by decide)).2.2.1⟩

/-- Claim C10: for the empty payload, `splitIntoChunks` returns the empty
chunk sequence (not a single empty chunk), and consequently
`sendChunkedMessage` on empty `fileContent` issues zero HTTP requests (empty
request trace) and returns the initial result `{status: null, data: null}`. -/
theorem empty_payload_no_requests
    (oracle : Nat → Except AxiosFailure HttpResp)
    (compressData : List Nat → List Nat) :
    splitIntoChunks [] = [] ∧
    sendChunkedMessage oracle compressData [] = ([], .ok none none) :=
  ⟨rfl, rfl⟩

/-- Claim C3: for every send whose payload splits into `N > 1` chunks (and
whose chunk uploads are accepted: first response 202 carrying a truthy
`message_id`, later responses 202), `sendChunkedMessage` issues exactly `N`
POST requests in order; request 1 goes to the collection endpoint with no
message identifier in its URL; each request `k` in `2..N` goes to the
endpoint containing the message identifier `m` taken from request 1's
response (carried unchanged) and index `k`; and the `mex-chunk-range` header
on request `k` is the string `"k:N"`. -/
theorem sendChunkedMessage_upload_sequencing
    (oracle : Nat → Except AxiosFailure HttpResp)
    (compressData : List Nat → List Nat) (fileContent : List Nat)
    (d0 : RespData) (m : String)
    (hN : 1 < (splitIntoChunks fileContent).length)
    (h0 : oracle 0 = .ok ⟨202, some d0⟩)
    (hid : d0.message_id = some m) (hm : m ≠ "")
    (hrest : ∀ k, 1 ≤ k → k < (splitIntoChunks fileContent).length →
      ∃ r, oracle k = .ok r ∧ r.status = 202) :
    (sendChunkedMessage oracle compressData fileContent).1.length =
      (splitIntoChunks fileContent).length ∧
    ((sendChunkedMessage oracle compressData fileContent).1)[0]? =
      some ⟨.outbox, 0,
        chunkRangeChars 1 (splitIntoChunks fileContent).length⟩ ∧
    ∀ k, 1 ≤ k → k < (splitIntoChunks fileContent).length →
      ((sendChunkedMessage oracle compressData fileContent).1)[k]? =
        some ⟨.outboxChunk m (k + 1), k,
          chunkRangeChars (k + 1) (splitIntoChunks fileContent).length⟩ := by
  rw [sendChunkedMessage_def]
  have hlen : ((splitIntoChunks fileContent).map compressData).length =
      (splitIntoChunks fileContent).length := List.length_map _ _
  have hne : (splitIntoChunks fileContent).map compressData ≠ [] := by
    intro hnil
    rw [hnil] at hlen
    simp at hlen
    omega
  obtain ⟨c0, rest, hcons⟩ := List.exists_cons_of_ne_nil hne
  rw [hcons]
  have hN' : (c0 :: rest).length = (splitIntoChunks fileContent).length := by
    rw [← hcons]
    exact hlen
  rw [sendLoop_cons_falsy_some oracle (c0 :: rest).length c0 rest 0 none none
    none 0 d0 h0 rfl, hid]
  simp only [Nat.zero_add]
  have hrest2 : ∀ k, k < rest.length →
      ∃ r, oracle (1 + k) = .ok r ∧ r.status = 202 := by
    intro k hk
    have h2 := hrest (k + 1) (by omega)
      (by rw [← hN']; simp only [List.length_cons]; omega)
    have he : k + 1 = 1 + k := by omega
    rw [he] at h2
    exact h2
  obtain ⟨hlen2, hget⟩ := sendLoop_truthy_trace oracle (c0 :: rest).length m
    hm rest 1 (some 202) (some d0) 1 hrest2
  refine ⟨?_, ?_, ?_⟩
  · rw [List.length_cons, hlen2, ← hN']
    rfl
  · rw [← hN']
    simp only [List.getElem?_cons_zero]
    rfl
  · intro k h1 hk
    obtain ⟨t, rfl⟩ : ∃ t, k = t + 1 := ⟨k - 1, by omega⟩
    rw [List.getElem?_cons_succ, ← hN']
    have h3 := hget t
      (by rw [← hN'] at hk; simp only [List.length_cons] at hk; omega)
    have e1 : 1 + t + 1 = t + 1 + 1 := by omega
    have e2 : 1 + t = t + 1 := by omega
    rw [e1, e2] at h3
    exact h3

/-- Witness for C3: the two-chunk payload `w3P` sent against `w3Oracle`
issues exactly two requests. -/
theorem sendChunkedMessage_upload_sequencing_witness :
    1 < (splitIntoChunks w3P).length ∧
    (sendChunkedMessage w3Oracle id w3P).1.length =
      (splitIntoChunks w3P).length := by
  have hlenP : w3P.length = CHUNK_SIZE + 1 := by simp [w3P]
  have hN : 1 < (splitIntoChunks w3P).length := by
    rw [splitIntoChunks_length, hlenP]
    decide
  refine ⟨hN, ?_⟩
  exact (sendChunkedMessage_upload_sequencing w3Oracle id w3P wRespData
    wMsgId hN rfl rfl (by decide)
    (fun k h1 hk => ⟨⟨202, none⟩, by
      simp only [w3Oracle]
      rw [if_neg (by omega : ¬k = 0)], rfl⟩)).1

/-- Counterexample to C4 as stated: a single-chunk send whose upload is
accepted with status 202 but whose response carries a null body.  The claim
predicts a Transfer Result carrying the final chunk's status and data
(`.ok (some 202) none`); the code instead throws a `TypeError` while reading
`response.data["message_id"]` of the null body and the `catch` block returns
the error object (`.errSetup`). -/
theorem sendChunkedMessage_final_result_counterexample :
    cx4Oracle 0 = .ok ⟨202, none⟩ ∧
    (sendChunkedMessage cx4Oracle id [1]).2 = .errSetup ∧
    (sendChunkedMessage cx4Oracle id [1]).2 ≠ .ok (some 202) none := by
  refine ⟨rfl, by decide, by decide⟩

/-- Claim C4, amended: for every send operation in which all chunk uploads
succeed with status 202 *and every chunk response carries non-null data*, the
Transfer Result returned by `sendChunkedMessage` carries the status and data
of the final chunk's server response only; responses to earlier chunks affect
the result only through extraction of the message identifier.  (Without the
non-null proviso the claim fails: a null `response.data` leaves the
previously stored result fields in place — see the counterexample.) -/
theorem sendChunkedMessage_final_result
    (oracle : Nat → Except AxiosFailure HttpResp)
    (compressData : List Nat → List Nat) (fileContent : List Nat)
    (d : Nat → RespData) (hN : 0 < (splitIntoChunks fileContent).length)
    (hor : ∀ k, k < (splitIntoChunks fileContent).length →
      oracle k = .ok ⟨202, some (d k)⟩) :
    (sendChunkedMessage oracle compressData fileContent).2 =
      .ok (some 202) (some (d ((splitIntoChunks fileContent).length - 1))) := by
  rw [sendChunkedMessage_def]
  have hlen : ((splitIntoChunks fileContent).map compressData).length =
      (splitIntoChunks fileContent).length := List.length_map _ _
  have hne : (splitIntoChunks fileContent).map compressData ≠ [] := by
    intro hnil
    rw [hnil] at hlen
    simp at hlen
    omega
  have hor2 : ∀ k, k < ((splitIntoChunks fileContent).map compressData).length →
      oracle (0 + k) = .ok ⟨202, some (d (0 + k))⟩ := by
    intro k hk
    rw [Nat.zero_add]
    exact hor k (by rw [← hlen]; exact hk)
  have h2 := sendLoop_202_outcome oracle
    ((splitIntoChunks fileContent).map compressData).length d
    ((splitIntoChunks fileContent).map compressData) 0 none none none 0 hne
    hor2
  rw [h2, Nat.zero_add, hlen]

/-- Witness for the amended C4: a single-chunk send against an always-202,
always-non-null server returns the final response's status and data. -/
theorem sendChunkedMessage_final_result_witness :
    0 < (splitIntoChunks w2P).length ∧
    (sendChunkedMessage wOracle202 id w2P).2 =
      .ok (some 202) (some wRespData) := by
  refine ⟨by decide, ?_⟩
  have h2 := sendChunkedMessage_final_result wOracle202 id w2P
    (fun _ => wRespData) (by decide) (fun k hk => rfl)
  exact h2

/-- Counterexample to C5 as stated: in a multi-part download the status of a
*subsequent* chunk response is never inspected.  Here chunk 2 of 2 arrives
with status 500, yet `readMessage` neither aborts nor stops: it appends the
body and returns `{status: 206, data: "ab"}` after both requests. -/
theorem readMessage_ignored_status_counterexample :
    cx5ReadOracle 1 = .ok ⟨500, ("b"), some (chunkRangeChars 2 2)⟩ ∧
    readMessage cx5ReadOracle 5 =
      ([⟨.inbox, 0⟩, ⟨.inboxChunk 2, 1⟩], .ok 206 ("ab")) := by
  refine ⟨rfl, by decide⟩

/-- Claim C5, amended: a response with a status outside the accepted set
causes an immediate fatal abort (`process.exit(1)`) with no further requests
for (a) every chunk position of the upload phase (upload: any status other
than 202) and (b) the *initial* response of the download phase (any status
other than 200 or 206).  The statuses of subsequent download chunk responses
are not inspected by the code (see the counterexample), so the abort does
not extend to them. -/
theorem wrong_status_fatal_abort :
    (∀ (oracle : Nat → Except AxiosFailure HttpResp)
      (compressData : List Nat → List Nat) (fileContent : List Nat)
      (d : Nat → RespData) (j : Nat) (r : HttpResp),
      j < (splitIntoChunks fileContent).length →
      (∀ k, k < j → oracle k = .ok ⟨202, some (d k)⟩) →
      oracle j = .ok r → r.status ≠ 202 →
      (sendChunkedMessage oracle compressData fileContent).1.length = j + 1 ∧
      (sendChunkedMessage oracle compressData fileContent).2 = .exited) ∧
    (∀ (oracle : Nat → Except AxiosFailure GetResp) (fuel : Nat)
      (r : GetResp), oracle 0 = .ok r → r.status ≠ 200 → r.status ≠ 206 →
      readMessage oracle fuel = ([⟨.inbox, 0⟩], .exited)) := by
  constructor
  · intro oracle compressData fileContent d j r hj hok hbad hst
    rw [sendChunkedMessage_def]
    have hlen : ((splitIntoChunks fileContent).map compressData).length =
        (splitIntoChunks fileContent).length := List.length_map _ _
    have hok2 : ∀ k, k < j → oracle (0 + k) = .ok ⟨202, some (d (0 + k))⟩ := by
      intro k hk
      rw [Nat.zero_add]
      exact hok k hk
    have hbad2 : oracle (0 + j) = .ok r := by
      rw [Nat.zero_add]
      exact hbad
    exact sendLoop_bad_at oracle _ d _ 0 none none none 0 j r
      (by rw [hlen]; exact hj) hok2 hbad2 hst
  · intro oracle fuel r h0 h200 h206
    exact readMessage_badstatus oracle fuel r h0 h200 h206

/-- Witness for the amended C5: a 500 on the first upload chunk exits after
one request; a 404 on the initial download request exits after one request. -/
theorem wrong_status_fatal_abort_witness :
    0 < (splitIntoChunks [1]).length ∧
    (sendChunkedMessage w5Oracle id [1]).1.length = 1 ∧
    (sendChunkedMessage w5Oracle id [1]).2 = .exited ∧
    readMessage w5ReadOracle 5 = ([⟨.inbox, 0⟩], .exited) := by
  have h2 := wrong_status_fatal_abort.1 w5Oracle id [1] (fun _ => wRespData)
    0 ⟨500, none⟩ (by decide) (fun k hk => absurd hk (by omega)) rfl
    (by decide)
  exact ⟨by decide, h2.1, h2.2,
    wrong_status_fatal_abort.2 w5ReadOracle 5 ⟨404, ("nf"), none⟩ rfl
      (by decide) (by decide)⟩

/-- Claim C6: for every multi-part download in which the initial response has
status 206 and the responses carry chunk ranges `"1:T"`, ..., `"T:T"` with
bodies `b 0, ..., b (T-1)` (subsequent statuses arbitrary — the code never
inspects them), `readMessage` issues exactly `T` requests — the first to the
identifier endpoint, each later request `k+1` to the identifier-and-index
endpoint with index `k+1` — and returns status 206 with the concatenation of
all chunk bodies in fetch order, even though assembly is complete. -/
theorem readMessage_chunked_assembly
    (oracle : Nat → Except AxiosFailure GetResp) (b : Nat → String)
    (s : Nat → Nat) (T fuel : Nat) (hT : 0 < T) (hfuel : T ≤ fuel)
    (hs0 : s 0 = 206)
    (hor : ∀ k, k < T →
      oracle k = .ok ⟨s k, b k, some (chunkRangeChars (k + 1) T)⟩) :
    (readMessage oracle fuel).1.length = T ∧
    ((readMessage oracle fuel).1)[0]? = some ⟨.inbox, 0⟩ ∧
    (∀ k, 1 ≤ k → k < T → ((readMessage oracle fuel).1)[k]? =
      some ⟨.inboxChunk ((k + 1 : Nat) : Int), k⟩) ∧
    (readMessage oracle fuel).2 =
      .ok 206 ((List.range T).foldl (fun a k => a ++ b k) ("")) := by
  have h0 := hor 0 hT
  rw [readMessage_206 oracle fuel ⟨s 0, b 0, some (chunkRangeChars (0 + 1) T)⟩
    h0 hs0]
  have hassemble := readLoop_assemble oracle b s T hor (T - 1) 0 fuel ("")
    (by omega) (by omega)
  simp only [Nat.zero_add] at hassemble
  rw [hassemble]
  have hTT : T - 1 + 1 = T := by omega
  refine ⟨?_, by simp, ?_, ?_⟩
  · simp only [List.length_cons, List.length_map, List.length_range']
    omega
  · intro k h1 hk
    obtain ⟨t, rfl⟩ : ∃ t, k = t + 1 := ⟨k - 1, by omega⟩
    rw [List.getElem?_cons_succ, List.getElem?_map]
    have hget : (List.range' 1 (T - 1))[t]? = some (1 + t) := by
      rw [List.getElem?_eq_getElem (by simp only [List.length_range']; omega)]
      congr 1
      rw [List.getElem_range']
      omega
    have he : 1 + t = t + 1 := by omega
    rw [hget, he]
    rfl
  · rw [hTT, ← List.range_eq_range']

/-- Witness for C6: the three-chunk download (statuses 206, 206, 200, ranges
`1:3`, `2:3`, `3:3`, bodies `"a"`, `"b"`, `"c"`) assembles to
`{status: 206, data: "abc"}` after exactly 3 requests. -/
theorem readMessage_chunked_assembly_witness :
    0 < 3 ∧ (readMessage w6Oracle 3).1.length = 3 ∧
    (readMessage w6Oracle 3).2 =
      .ok 206 ((List.range 3).foldl (fun a k => a ++ w6Bodies k) ("")) := by
  have h2 := readMessage_chunked_assembly w6Oracle w6Bodies w6Statuses 3 3
    (by decide) (by decide) rfl (fun k hk => rfl)
  exact ⟨by decide, h2.1, h2.2.2.2⟩

/-- Claim C7 is refuted by the code (code bug): on a malformed
`mex-chunk-range` header no error surfaces.  With the non-numeric value
`"abc"` both parsed fields are NaN, the loop's `currentChunk < totalChunks`
comparison is false, and `readMessage` silently returns the partial result
`{status: 206, data: "a"}`.  With the value `":3"` the current-chunk field
is the empty string, which `Number` coerces to 0, and the loop *continues*,
fetching chunk index 1.  Both runs contradict the specified behavior of
surfacing an error. -/
theorem readMessage_malformed_range_behavior :
    readMessage cx7Oracle 5 = ([⟨.inbox, 0⟩], .ok 206 ("a")) ∧
    readMessage cx7bOracle 5 =
      ([⟨.inbox, 0⟩, ⟨.inboxChunk 1, 1⟩], .ok 206 ("ab")) := by
  refine ⟨by decide, by decide⟩

/-- Counterexample to C8 as stated: a transport failure (no response) on the
*initial* download request is not caught and not returned as an error value —
the `axios.get` sits outside the `try` block, so the rejection propagates to
the caller as a raised exception. -/
theorem readMessage_transport_raises_counterexample :
    readMessage cx8ReadOracle 5 = ([⟨.inbox, 0⟩], .raised .request) := by
  decide

/-- Claim C8, amended: for *send* operations a transport-level failure on any
request is caught and returned to the caller as the error object, through
three distinct branches for "server responded with error status", "no
response received" and "request could not be constructed" (`errOf` is
injective and never the fatal abort).  For *receive* operations the claim
fails: a transport failure on the initial request propagates as a raised
exception, and one on a subsequent chunk request terminates the process
(see the counterexample). -/
theorem transport_error_handling :
    (∀ (oracle : Nat → Except AxiosFailure HttpResp)
      (compressData : List Nat → List Nat) (fileContent : List Nat)
      (d : Nat → RespData) (j : Nat) (e : AxiosFailure),
      j < (splitIntoChunks fileContent).length →
      (∀ k, k < j → oracle k = .ok ⟨202, some (d k)⟩) →
      oracle j = .error e →
      (sendChunkedMessage oracle compressData fileContent).1.length = j + 1 ∧
      (sendChunkedMessage oracle compressData fileContent).2 = errOf e) ∧
    Function.Injective errOf ∧
    (∀ e, errOf e ≠ .exited) ∧
    (∀ (oracle : Nat → Except AxiosFailure GetResp) (fuel : Nat)
      (e : AxiosFailure), oracle 0 = .error e →
      readMessage oracle fuel = ([⟨.inbox, 0⟩], .raised e)) ∧
    (∀ (oracle : Nat → Except AxiosFailure GetResp) (fuel T : Nat)
      (b0 : String) (e : AxiosFailure), 1 < T →
      oracle 0 = .ok ⟨206, b0, some (chunkRangeChars 1 T)⟩ →
      oracle 1 = .error e →
      readMessage oracle (fuel + 1) =
        ([⟨.inbox, 0⟩, ⟨.inboxChunk 2, 1⟩], .exited)) := by
  refine ⟨?_, ?_, ?_, ?_, ?_⟩
  · intro oracle compressData fileContent d j e hj hok herr
    rw [sendChunkedMessage_def]
    have hlen : ((splitIntoChunks fileContent).map compressData).length =
        (splitIntoChunks fileContent).length := List.length_map _ _
    have hok2 : ∀ k, k < j → oracle (0 + k) = .ok ⟨202, some (d (0 + k))⟩ := by
      intro k hk
      rw [Nat.zero_add]
      exact hok k hk
    have herr2 : oracle (0 + j) = .error e := by
      rw [Nat.zero_add]
      exact herr
    exact sendLoop_error_at oracle _ d _ 0 none none none 0 j e
      (by rw [hlen]; exact hj) hok2 herr2
  · intro e e2 h
    cases e <;> cases e2 <;> simp_all [errOf]
  · intro e
    cases e <;> simp [errOf]
  · intro oracle fuel e h0
    exact readMessage_error oracle fuel e h0
  · intro oracle fuel T b0 e hT h0 h1
    rw [readMessage_206 oracle (fuel + 1)
      ⟨206, b0, some (chunkRangeChars 1 T)⟩ h0 rfl]
    rw [readLoop_fetch_error oracle fuel 1 1 ("")
      ⟨206, b0, some (chunkRangeChars 1 T)⟩ (chunkRangeChars 1 T)
      ((1 : Nat) : Int) ((T : Nat) : Int) e rfl
      (parseChunkRange_chunkRangeChars 1 T) (by omega) h1]
    norm_num

/-- Witness for the amended C8: a no-response failure on the first upload
chunk is returned as the error object after one request; a no-response
failure on the initial download request is raised; a transport failure on
download chunk 2 of 2 exits the process after two requests. -/
theorem transport_error_handling_witness :
    0 < (splitIntoChunks [1]).length ∧
    (sendChunkedMessage w8Oracle id [1]).2 = errOf .request ∧
    readMessage cx8ReadOracle 7 = ([⟨.inbox, 0⟩], .raised .request) ∧
    readMessage w8cReadOracle (4 + 1) =
      ([⟨.inbox, 0⟩, ⟨.inboxChunk 2, 1⟩], .exited) := by
  have h2 := transport_error_handling.1 w8Oracle id [1] (fun _ => wRespData)
    0 .request (by decide) (fun k hk => absurd hk (by omega)) rfl
  refine ⟨by decide, h2.2, ?_, ?_⟩
  · exact transport_error_handling.2.2.2.1 cx8ReadOracle 7 .request rfl
  · exact transport_error_handling.2.2.2.2 w8cReadOracle 4 2 ("a") .setup
      (by decide) rfl rfl

/-- Claim C9: within one operation each issued request carries the header set
produced by a distinct invocation of the Header Provider — request `j` (in
either the upload trace or the download trace) carries exactly the `j`-th
`generateHeaders` invocation's header set, so `generateHeaders` is called
once per request and no two requests of one operation share a header set. -/
theorem header_freshness :
    (∀ (oracle : Nat → Except AxiosFailure HttpResp)
      (compressData : List Nat → List Nat) (fileContent : List Nat)
      (j : Nat) (r : SendRequest),
      ((sendChunkedMessage oracle compressData fileContent).1)[j]? = some r →
      r.headerToken = j) ∧
    (∀ (oracle : Nat → Except AxiosFailure GetResp) (fuel j : Nat)
      (r : ReadRequest),
      ((readMessage oracle fuel).1)[j]? = some r → r.headerToken = j) := by
  constructor
  · intro oracle compressData fileContent j r hj
    rw [sendChunkedMessage_def] at hj
    have h2 := sendLoop_headerToken oracle _ _ 0 none none none 0 j r hj
    omega
  · intro oracle fuel j r hj
    exact readMessage_headerToken oracle fuel j r hj

/-- Witness for C9 at a one-chunk upload and a stand-alone download. -/
theorem header_freshness_witness :
    ((sendChunkedMessage wOracle202 id [1]).1)[0]? =
      some ⟨.outbox, 0, chunkRangeChars 1 1⟩ ∧
    (⟨.outbox, 0, chunkRangeChars 1 1⟩ : SendRequest).headerToken = 0 ∧
    ((readMessage w9ReadOracle 5).1)[0]? = some ⟨.inbox, 0⟩ ∧
    (⟨.inbox, 0⟩ : ReadRequest).headerToken = 0 := by
  refine ⟨by decide, ?_, by decide, ?_⟩
  · exact header_freshness.1 wOracle202 id [1] 0 _ (by decide)
  · exact header_freshness.2 w9ReadOracle 5 0 _ (by decide)
